import Mathlib

/-!
Shallow embedding of logjammin.py (a plain-text work-log parser) and proofs
about its specification.

The embedding follows the source line by line:
* normalization of an input line mirrors re.sub(r'\s+', ' ', line.strip());
* the date regex ^(\d{4})-?(\d{2})-?(\d{2})$ becomes parseDateShape;
* datetime(...) field validation becomes validYMD / datetimeError
  (CPython checks year, then month, then day);
* the ticket regex ^[A-Z][A-Z0-9]+-\d+$ (IGNORECASE) becomes ticketMatch;
* the decimal-hours regex ^(\d+\.\d+|\.\d+|\d+)\s*H?$ (IGNORECASE) becomes
  decHoursMatch, with the float value idealized as the exact rational of
  the literal; IEEE-754 double rounding (of float() and of the 60*
  product) is not modelled, so duration values computed from decimal
  literals finer than double precision are outside this embedding (see
  the comments on decHoursMatch and timeRaw); every decimal literal
  exercised by a theorem below is exactly representable as a double;
* the hours/minutes regex ((?P<hours>\d+)\s*H)?\s*((?P<minutes>\d+)\s*M)?
  (IGNORECASE, matched as an unanchored prefix by re.match) becomes hmScan;
* the parse_line state machine and load_logs loop are threaded through an
  explicit state St (mode, current_date, logs); in the Python source these
  are attributes of the LogJammin object.  load_logs returns the final
  object state together with the raised error, if any, so that the state
  left behind by an aborted run is observable, as it is in Python.
  Runs are modelled in parse-only mode (no JIRA ticket-existence lookup).
-/

deriving instance DecidableEq for Except

namespace Logjammin

/-- Whitespace characters of the regex class \s (ASCII range), as used by
Python's re and str.strip on the inputs of this program. -/
def isWS (c : Char) : Bool :=
  c = ' ' || c = '\t' || c = '\n' || c = '\r' || c = '\x0b' || c = '\x0c'

/-- Replacement of a whitespace character by a plain space. -/
def wsToSpace (c : Char) : Char := if isWS c then ' ' else c

/-- Collapse of runs of spaces to a single space (the effect of
re.sub(r'\s+', ' ', _) after every whitespace char was mapped to ' '). -/
def dedupeSpaces : List Char → List Char
  | [] => []
  | [c] => [c]
  | a :: b :: r =>
    if a = ' ' && b = ' ' then dedupeSpaces (b :: r) else a :: dedupeSpaces (b :: r)

/-- Python str.strip(): drop whitespace from both ends. -/
def trimWS (cs : List Char) : List Char :=
  ((cs.dropWhile isWS).reverse.dropWhile isWS).reverse

/-- Line normalization from parse_line:
re.sub(r'\s+', ' ', line.strip()). -/
def normalize (s : String) : String :=
  String.mk (dedupeSpaces ((trimWS s.data).map wsToSpace))

/-- Error wrapper of parse_line:
'String \x7b\x7d is invalid: \x7b\x7d'.format(line, e) with the line
text quoted. -/
def invalidLine (line e : String) : String := s!"String '{line}' is invalid: {e}"

/-- Error wrapper of load_logs:
'Error on line \x7b\x7d: \x7b\x7d'.format(line_no, e). -/
def errorOnLine (n : Nat) (e : String) : String := s!"Error on line {n}: {e}"

/-- Numeric value of a string of decimal digits (int('...') / the digits
captured by a regex group). -/
def digitsVal (cs : List Char) : Nat :=
  cs.foldl (fun a c => 10 * a + (c.toNat - 48)) 0

/-- Take exactly n decimal digits from the front (the regex \d{n}). -/
def takeDigits : Nat → List Char → Option (List Char × List Char)
  | 0, cs => some ([], cs)
  | _ + 1, [] => none
  | n + 1, c :: cs =>
    if c.isDigit then (takeDigits n cs).map (fun p => (c :: p.1, p.2)) else none

/-- Consume one optional hyphen (the regex -?; a hyphen can only be eaten
here because \d never matches it). -/
def skipHyphen (cs : List Char) : List Char :=
  match cs with
  | c :: r => if c = '-' then r else cs
  | [] => cs

/-- Date-shape regex of parse_date_line:
re.match(r'^(?P<year>\d{4})-?(?P<month>\d{2})-?(?P<day>\d{2})$', line).
Each of the two hyphens is independently optional. -/
def parseDateShape (cs : List Char) : Option (Nat × Nat × Nat) :=
  match takeDigits 4 cs with
  | none => none
  | some (ya, r1) =>
    match takeDigits 2 (skipHyphen r1) with
    | none => none
    | some (ma, r2) =>
      match takeDigits 2 (skipHyphen r2) with
      | none => none
      | some (da, r3) =>
        if r3.isEmpty then some (digitsVal ya, digitsVal ma, digitsVal da) else none

/-- Gregorian leap-year rule, as used by datetime. -/
def isLeap (y : Nat) : Bool := y % 4 = 0 && (y % 100 != 0 || y % 400 = 0)

/-- Days in a month, as used by datetime. -/
def daysInMonth (y m : Nat) : Nat :=
  if m = 2 then (if isLeap y then 29 else 28)
  else if m = 4 || m = 6 || m = 9 || m = 11 then 30
  else 31

/-- Field validity checked by the datetime(year, month, day) constructor. -/
def validYMD (y m d : Nat) : Bool :=
  1 ≤ y && y ≤ 9999 && 1 ≤ m && m ≤ 12 && 1 ≤ d && d ≤ daysInMonth y m

/-- Message of the ValueError raised by datetime(year, month, day) on an
invalid field (CPython checks year, then month, then day). -/
def datetimeError (y m _d : Nat) : String :=
  if y < 1 || 9999 < y then s!"year {y} is out of range"
  else if m < 1 || 12 < m then "month must be in 1..12"
  else "day is out of range for month"

/-- Calendar date.  All datetimes built by the program live in the single
configured time zone and have no time-of-day component, so they compare
exactly like their (year, month, day) triples; 'now' is likewise modelled
by its date (a midnight datetime is never later than any moment of the
same day). -/
structure Date where
  year : Nat
  month : Nat
  day : Nat
deriving DecidableEq, Repr

/-- Lexicographic less-or-equal on lists of naturals. -/
def lexLe : List Nat → List Nat → Bool
  | [], _ => true
  | _ :: _, [] => false
  | a :: as, b :: bs => if a < b then true else if b < a then false else lexLe as bs

/-- Chronological order on dates (lexicographic on year, month, day). -/
def dateLe (a b : Date) : Bool :=
  lexLe [a.year, a.month, a.day] [b.year, b.month, b.day]

/-- parse_date_line: match the date shape, build the datetime (validity
errors from the constructor), and reject dates after 'now'
('if date > self.now: raise'). -/
def parse_date_line (now : Date) (line : String) : Except String Date :=
  match parseDateShape line.data with
  | none => .error "Pattern not matched"
  | some (y, m, d) =>
    if !validYMD y m d then .error (datetimeError y m d)
    else if !dateLe ⟨y, m, d⟩ now then .error "Date is in the future"
    else .ok ⟨y, m, d⟩

/-- Ticket regex ^[A-Z][A-Z0-9]+-\d+$ with re.IGNORECASE: a letter, at
least one more alphanumeric, a hyphen, at least one digit, end of string.
Returns the matched characters (group(0)). -/
def ticketMatch (cs : List Char) : Option (List Char) :=
  match cs with
  | [] => none
  | c0 :: rest =>
    if !c0.isAlpha then none
    else
      let run := rest.takeWhile Char.isAlphanum
      if run.isEmpty then none
      else
        match rest.dropWhile Char.isAlphanum with
        | '-' :: ds =>
          if !ds.isEmpty && ds.all Char.isDigit then some (c0 :: run ++ '-' :: ds)
          else none
        | _ => none

/-- Python str.upper() on the matched ticket. -/
def upperStr (cs : List Char) : String := String.mk (cs.map Char.toUpper)

/-- Tail of the decimal-hours regex after the number: \s*H?$ . -/
def decTailOk (r : List Char) : Bool :=
  match r.dropWhile isWS with
  | [] => true
  | [c] => c = 'h' || c = 'H'
  | _ => false

/-- Decimal-hours regex ^(\d+\.\d+|\.\d+|\d+)\s*H?$ with re.IGNORECASE,
returning the value of the captured number (group(1)): a literal with
integer digits a and k fractional digits b denotes (a * 10^k + b) / 10^k.
The Python source converts the literal with float(), which stores the
nearest IEEE-754 double instead of this exact rational.  The two agree
on every literal that is exactly representable as a double — in
particular on all literals appearing in the theorems of this file (.5,
1.5, 1.999, 2.75, 0) — but differ on finer literals (for example
0.033333333333333333), so properties of double-rounded duration values
are not settled through this definition. -/
def decHoursMatch (cs : List Char) : Option ℚ :=
  let a := cs.takeWhile Char.isDigit
  match cs.dropWhile Char.isDigit with
  | '.' :: r2 =>
    let b := r2.takeWhile Char.isDigit
    if b.isEmpty then none
    else if decTailOk (r2.dropWhile Char.isDigit) then
      some (mkRat (digitsVal a * 10 ^ b.length + digitsVal b) (10 ^ b.length))
    else none
  | r =>
    if a.isEmpty then none
    else if decTailOk r then some (mkRat (digitsVal a) 1) else none

/-- One optional group (\d+\s*H)? or (\d+\s*M)? of the hours/minutes
regex: digits, optional whitespace, the unit letter (case-insensitive).
On failure the position is left unchanged.  Shortening the greedy \d+
can never help (the next char would be a digit, not the unit), so the
group is deterministic. -/
def unitGroup (cs : List Char) (u : Char) : Option Nat × List Char :=
  let ds := cs.takeWhile Char.isDigit
  if ds.isEmpty then (none, cs)
  else
    match (cs.dropWhile Char.isDigit).dropWhile isWS with
    | c :: rest => if c.toLower = u then (some (digitsVal ds), rest) else (none, cs)
    | [] => (none, cs)

/-- Hours/minutes regex ((?P<hours>\d+)\s*H)?\s*((?P<minutes>\d+)\s*M)?
with re.IGNORECASE.  re.match anchors it at the start only; since both
groups are optional it always matches some prefix, and any trailing
characters (returned here) are ignored by the caller. -/
def hmScan (cs : List Char) : Nat × Nat × List Char :=
  let (oh, cs1) := unitGroup cs 'h'
  let (om, cs3) := unitGroup (cs1.dropWhile isWS) 'm'
  (oh.getD 0, om.getD 0, cs3)

/-- Hours and minutes computed by parse_time_log_line before its zero
check: the decimal grammar first (hours = math.floor(dec_hours),
minutes = math.floor(60 * (dec_hours % 1))), else the hours/minutes
grammar, else the initial zeros.  For a non-negative v with numerator n
and denominator d, the expression 60 * (v % 1) is computed here as the
exact rational 60 * (n mod d) / d, built with integer operations (which
the kernel evaluates) and proved equal to 60 * Int.fract v in
floor_mul_fract below.  The Python source performs this multiplication
in IEEE-754 double precision, whose extra rounding this definition
idealizes away (at the literal 0.033333333333333333 the program rounds
60 * (v % 1) up to exactly 2.0 and yields 2 minutes where exact
arithmetic yields 1); on the double-exact inputs exercised by the
theorems below the product is exact and the two coincide. -/
def timeRaw (cs : List Char) : Nat × Nat :=
  match decHoursMatch cs with
  | some v =>
    ((Rat.floor v).toNat,
      (Rat.floor (mkRat (Int.mul 60 (v.num % (v.den : Int))) v.den)).toNat)
  | none =>
    let (h, m, _) := hmScan cs
    (h, m)

/-- Time part of parse_time_log_line, including the final
'if not hours and not minutes: raise' check. -/
def parse_time_str (cs : List Char) : Except String (Nat × Nat) :=
  let (h, m) := timeRaw cs
  if h = 0 && m = 0 then .error "Time pattern not matched" else .ok (h, m)

/-- Python line.split(',', 2): at most three parts, the description may
itself contain commas. -/
def split2 (cs : List Char) : List (List Char) :=
  let p1 := cs.takeWhile (· ≠ ',')
  match cs.dropWhile (· ≠ ',') with
  | [] => [p1]
  | _ :: r1 =>
    let p2 := r1.takeWhile (· ≠ ',')
    match r1.dropWhile (· ≠ ',') with
    | [] => [p1, p2]
    | _ :: r2 => [p1, p2, r2]

/-- parse_time_log_line in parse-only mode: split the line, match the
ticket (uppercased on success), parse the time, keep the description.
The JIRA existence check (assert_ticket_exists) is skipped exactly as it
is when parse_only is set. -/
def parse_time_log_line (line : String) : Except String (String × (Nat × Nat) × String) :=
  let parts := split2 line.data
  let ticket_str := trimWS (parts.getD 0 [])
  let time_str := trimWS (parts.getD 1 [])
  let description := trimWS (parts.getD 2 [])
  match ticketMatch ticket_str with
  | none => .error "Ticket pattern not matched"
  | some t =>
    match parse_time_str time_str with
    | .error e => .error e
    | .ok tm => .ok (upperStr t, tm, String.mk description)

/-- Parser modes 'date', 'time_log', 'date_or_time_log'. -/
inductive Mode where
  | date
  | timeLog
  | dateOrTimeLog
deriving DecidableEq, Repr

/-- One work-log entry, the dict appended by add_log. -/
structure Log where
  date : Option Date
  ticket : String
  description : String
  hours : Nat
  minutes : Nat
deriving DecidableEq, Repr

/-- Mutable attributes of the LogJammin object that the parser touches:
mode, current_date and the shared logs list. -/
structure St where
  mode : Mode
  current_date : Option Date
  logs : List Log
deriving DecidableEq, Repr

/-- State of a fresh parser run: mode 'date', no pending date, no logs. -/
def initSt : St := ⟨.date, none, []⟩

/-- The mode == 'date' branch of parse_line: try the date heading, commit
it as current_date and move to 'time_log'; wrap any failure with the raw
line text. -/
def parse_line_as_date (now : Date) (st : St) (line : String) : Except String St :=
  match parse_date_line now (normalize line) with
  | .ok d => .ok { st with current_date := some d, mode := .timeLog }
  | .error e => .error (invalidLine line e)

/-- The mode == 'time_log' branch of parse_line: parse a time entry,
append it (add_log stamps it with current_date) and move to
'date_or_time_log'; wrap any failure with the raw line text. -/
def parse_line_as_time (st : St) (line : String) : Except String St :=
  match parse_time_log_line (normalize line) with
  | .ok r =>
    .ok { st with
          logs := st.logs ++ [⟨st.current_date, r.1, r.2.2, r.2.1.1, r.2.1.2⟩],
          mode := .dateOrTimeLog }
  | .error e => .error (invalidLine line e)

/-- parse_line.  The 'date_or_time_log' branch of the source sets the mode
and recursively calls parse_line on the same line, twice; that bounded
recursion is unrolled here: try the date interpretation, then the time
interpretation, and on a double failure wrap the second (already wrapped)
error once more.  (On that failure path the Python object is left with
mode 'time_log'; the exception aborts the run before anything reads the
mode again, and the error-free fields logs and current_date are
unchanged, so the failed state is not modelled beyond the message.) -/
def parse_line (now : Date) (st : St) (line : String) : Except String St :=
  match st.mode with
  | .date => parse_line_as_date now st line
  | .timeLog => parse_line_as_time st line
  | .dateOrTimeLog =>
    match parse_line_as_date now st line with
    | .ok st' => .ok st'
    | .error _ =>
      match parse_line_as_time st line with
      | .ok st' => .ok st'
      | .error e => .error (invalidLine line e)

/-- Project part of the sort key: k['ticket'].split('-')[0]. -/
def ticketProj (t : String) : List Char := t.data.takeWhile (· ≠ '-')

/-- Numeric part of the sort key: int(k['ticket'].split('-')[1]).  For
tickets produced by ticketMatch the segment after the single hyphen is a
nonempty digit string, exactly the domain on which int() succeeds. -/
def ticketNum (t : String) : Nat :=
  digitsVal (((t.data.dropWhile (· ≠ '-')).drop 1).takeWhile (· ≠ '-'))

/-- Flattened sort key of load_logs' lambda
(k['date'], k['ticket'].split('-')[0], int(k['ticket'].split('-')[1])),
encoded as one list of naturals compared lexicographically: a presence
tag and the date triple, then the character codes of the project part,
then a separator 0 (strictly below every real character code, so that a
proper prefix of a project string sorts first exactly as Python string
comparison does), then the ticket number.  On logs produced by the
parser this order coincides with Python's tuple order; on a date of None
Python would raise when comparing, and the encoding simply places None
first. -/
def sortKey (l : Log) : List Nat :=
  (match l.date with
   | none => [0, 0, 0, 0]
   | some d => [1, d.year, d.month, d.day])
  ++ (ticketProj l.ticket).map Char.toNat ++ [0, ticketNum l.ticket]

/-- Order in which load_logs sorts the collected logs. -/
def logLe (a b : Log) : Bool := lexLe (sortKey a) (sortKey b)

/-- Insertion of a log into an already sorted list, before the first
element it is less-or-equal to; a new element therefore lands in front
of key-equal elements that were inserted earlier. -/
def insertLog (l : Log) : List Log → List Log
  | [] => [l]
  | x :: xs => if logLe l x then l :: x :: xs else x :: insertLog l xs

/-- self.logs.sort(key=...): Python's sort is a stable sort by the key,
and all stable sorts under one total preorder agree, so it is modelled
by stable insertion sort (each element inserted into the sorted tail of
the elements after it, i.e. earlier elements end up before key-equal
later ones). -/
def sortLogs (logs : List Log) : List Log := logs.foldr insertLog []

/-- Loop body of load_logs: count every physical line (line_no starts at
1), skip lines that are blank after stripping, feed the rest to
parse_line, and on a failure abort with 'Error on line N: ...', leaving
the state accumulated so far.  The terminal progress output is ignored. -/
def loadLogsAux (now : Date) : St → Nat → List String → St × Option String
  | st, _, [] => (st, none)
  | st, n, l :: ls =>
    if (trimWS l.data).isEmpty then loadLogsAux now st (n + 1) ls
    else
      match parse_line now st l with
      | .ok st' => loadLogsAux now st' (n + 1) ls
      | .error e => (st, some (errorOnLine n e))

/-- load_logs: run the loop over all lines, and only when no exception
was raised sort self.logs in place. -/
def load_logs (now : Date) (st : St) (lines : List String) : St × Option String :=
  match loadLogsAux now st 1 lines with
  | (st', none) => ({ st' with logs := sortLogs st'.logs }, none)
  | r => r

/-- Minutes contributed by one log entry
(60 * log['time']['hours'] + log['time']['minutes']). -/
def entryMinutes (l : Log) : Nat := 60 * l.hours + l.minutes

/-- Zero-padded decimal rendering used by strftime fields. -/
def pad (w n : Nat) : String :=
  String.mk (List.replicate (w - (toString n).length) '0') ++ toString n

/-- Grouping key of print_summary: log['date'].strftime('%Y-%m-%d').
A log with no date would make strftime fail; the parser never emits one. -/
def dateStr : Option Date → String
  | none => "None"
  | some d => pad 4 d.year ++ "-" ++ pad 2 d.month ++ "-" ++ pad 2 d.day

/-- Append a log to its date group, keeping first-seen group order (the
OrderedDict of print_summary). -/
def addToGroups : List (String × List Log) → String → Log → List (String × List Log)
  | [], k, l => [(k, [l])]
  | (k', ls) :: rest, k, l =>
    if k' = k then (k', ls ++ [l]) :: rest
    else (k', ls) :: addToGroups rest k l

/-- logs_by_date of print_summary: logs grouped by date string in
first-seen order, each log appended to its group in list order. -/
def logs_by_date (logs : List Log) : List (String × List Log) :=
  logs.foldl (fun gs l => addToGroups gs (dateStr l.date) l) []

/-- Per-group total_time_minutes. -/
def sumMinutes (ls : List Log) : Nat := ls.foldl (fun a l => a + entryMinutes l) 0

/-- Per-date summary lines: date, number of logs, and the group total
re-derived as math.floor(total / 60) hours and total % 60 minutes. -/
def dateSummaries (logs : List Log) : List (String × Nat × Nat × Nat) :=
  (logs_by_date logs).map fun g => (g.1, g.2.length, sumMinutes g.2 / 60, sumMinutes g.2 % 60)

/-- Grand total line: number of days (groups), number of logs, and the
sum of the per-group totals split into hours and minutes. -/
def grandSummary (logs : List Log) : Nat × Nat × Nat × Nat :=
  let total := (logs_by_date logs).foldl (fun a g => a + sumMinutes g.2) 0
  ((logs_by_date logs).length, logs.length, total / 60, total % 60)

/-- Fixed process-start clock used by the concrete runs below; every date
in the example files is earlier. -/
def now₀ : Date := ⟨2025, 1, 1⟩

/-- Hyphen of the date shape when present. -/
def hyph : Bool → List Char
  | true => ['-']
  | false => []

/-- Executable Rat.floor agrees with the mathematical floor. -/
theorem ratFloor_eq_intFloor (q : ℚ) : Rat.floor q = ⌊q⌋ := by
  rw [Rat.floor_def, Rat.floor_def']

/-- Fractional part of a rational in terms of its numerator and
denominator (Python's v % 1 for the parsed value). -/
theorem fract_mod (v : ℚ) :
    Int.fract v = ((v.num % (v.den : Int) : Int) : ℚ) / ((v.den : ℕ) : ℚ) := by
  rw [Int.fract, Rat.floor_def, Int.emod_def]
  have hden : ((v.den : ℕ) : ℚ) ≠ 0 := by positivity
  rw [eq_div_iff hden]
  push_cast
  rw [sub_mul, Rat.mul_den_eq_num]
  ring

/-- The integer-arithmetic minutes expression of timeRaw is the floor of
60 times the fractional part, i.e. math.floor(60 * (dec_hours % 1)). -/
theorem floor_mul_fract (v : ℚ) :
    Rat.floor (mkRat (Int.mul 60 (v.num % (v.den : Int))) v.den) =
      ⌊(60 : ℚ) * Int.fract v⌋ := by
  have h1 : Int.mul 60 (v.num % (v.den : Int)) = (60 * (v.num % (v.den : Int)) : ℤ) := rfl
  rw [ratFloor_eq_intFloor, fract_mod, Rat.mkRat_eq_div, h1]
  rw [show ((60 : ℚ) * (((v.num % (v.den : Int) : Int) : ℚ) / ((v.den : ℕ) : ℚ))) =
      (((60 * (v.num % (v.den : Int)) : ℤ) : ℚ) / ((v.den : ℕ) : ℚ)) by push_cast; ring]

/-- Totality of the lexicographic order on key lists. -/
theorem lexLe_total : ∀ xs ys : List Nat, (lexLe xs ys || lexLe ys xs) = true := by
  intro xs
  induction xs with
  | nil => intro ys; simp [lexLe]
  | cons a as ih =>
    intro ys
    cases ys with
    | nil => simp [lexLe]
    | cons b bs =>
      simp only [lexLe]
      by_cases h1 : a < b
      · simp [h1]
      · by_cases h2 : b < a
        · simp [h1, h2]
        · have hab : a = b := by omega
          subst hab
          simpa [h1, h2] using ih bs

/-- Transitivity of the lexicographic order on key lists. -/
theorem lexLe_trans :
    ∀ xs ys zs : List Nat, lexLe xs ys = true → lexLe ys zs = true → lexLe xs zs = true := by
  intro xs
  induction xs with
  | nil => intro ys zs _ _; simp [lexLe]
  | cons a as ih =>
    intro ys zs h1 h2
    cases ys with
    | nil => simp [lexLe] at h1
    | cons b bs =>
      cases zs with
      | nil => simp [lexLe] at h2
      | cons c cs =>
        simp only [lexLe] at h1 h2 ⊢
        by_cases hab : a < b
        · by_cases hbc : b < c
          · simp [show a < c by omega]
          · by_cases hcb : c < b
            · simp [hab, hbc, hcb] at h2
            · have : b = c := by omega
              subst this
              simp [hab]
        · by_cases hba : b < a
          · simp [hab, hba] at h1
          · have : a = b := by omega
            subst this
            simp only [if_neg hab, if_neg hba] at h1 ⊢
            by_cases hbc : a < c
            · simp [hbc]
            · by_cases hcb : c < a
              · simp [hbc, hcb] at h2
              · have : a = c := by omega
                subst this
                simp only [if_neg hbc, if_neg hcb] at h2 ⊢
                exact ih bs cs h1 h2

/-- Totality of the log comparator. -/
theorem logLe_total (a b : Log) : (logLe a b || logLe b a) = true :=
  lexLe_total (sortKey a) (sortKey b)

/-- Transitivity of the log comparator. -/
theorem logLe_trans (a b c : Log) :
    logLe a b = true → logLe b c = true → logLe a c = true :=
  lexLe_trans (sortKey a) (sortKey b) (sortKey c)

/-- C1: on the five-line example file, a parse-only run succeeds with
exactly three entries, ordered PROJ-1@2024-01-05, PROJ-2@2024-01-05,
PROJ-1@2024-01-06; the per-date totals are 2h0m over 2 entries for
2024-01-05 and 0h45m over 1 entry for 2024-01-06; and the grand total is
2 days, 3 logs, 2h45m. -/
theorem c1_end_to_end :
    load_logs now₀ initSt
        ["2024-01-05", "PROJ-1, 1h30m, did work", "PROJ-2, .5h", "2024-01-06", "PROJ-1, 45m"] =
      ({ mode := .dateOrTimeLog,
         current_date := some ⟨2024, 1, 6⟩,
         logs := [⟨some ⟨2024, 1, 5⟩, "PROJ-1", "did work", 1, 30⟩,
                  ⟨some ⟨2024, 1, 5⟩, "PROJ-2", "", 0, 30⟩,
                  ⟨some ⟨2024, 1, 6⟩, "PROJ-1", "", 0, 45⟩] }, none)
    ∧ dateSummaries
        [⟨some ⟨2024, 1, 5⟩, "PROJ-1", "did work", 1, 30⟩,
         ⟨some ⟨2024, 1, 5⟩, "PROJ-2", "", 0, 30⟩,
         ⟨some ⟨2024, 1, 6⟩, "PROJ-1", "", 0, 45⟩] =
        [("2024-01-05", 2, 2, 0), ("2024-01-06", 1, 0, 45)]
    ∧ grandSummary
        [⟨some ⟨2024, 1, 5⟩, "PROJ-1", "did work", 1, 30⟩,
         ⟨some ⟨2024, 1, 5⟩, "PROJ-2", "", 0, 30⟩,
         ⟨some ⟨2024, 1, 6⟩, "PROJ-1", "", 0, 45⟩] =
        (2, 3, 2, 45) := by
  decide

/-- C6: whenever the hours and minutes computed by the time grammars are
both zero, the parse fails with the grammar-mismatch error, whichever
grammar matched; in particular 0h0m (hours-and-minutes grammar) and 0
(decimal grammar) both fail. -/
theorem c6_zero_duration_rejected :
    (∀ cs : List Char, timeRaw cs = (0, 0) →
      parse_time_str cs = .error "Time pattern not matched")
    ∧ parse_time_str "0h0m".data = .error "Time pattern not matched"
    ∧ parse_time_str "0".data = .error "Time pattern not matched" := by
  refine ⟨?_, by decide, by decide⟩
  intro cs h
  simp [parse_time_str, h]

/-- C6 witness: the string 0h 0m computes to the zero duration and is
rejected by the theorem. -/
theorem c6_zero_duration_rejected_witness :
    timeRaw "0h 0m".data = (0, 0)
    ∧ parse_time_str "0h 0m".data = .error "Time pattern not matched" :=
  ⟨by decide, c6_zero_duration_rejected.1 "0h 0m".data (by decide)⟩

/-- C7 counterexample: the claim says a string with trailing text after a
valid hours-and-minutes prefix, such as 45m later, is not accepted; the
code accepts it as 0 hours 45 minutes because the hours-and-minutes regex
is matched as an unanchored prefix. -/
theorem c7_counterexample : parse_time_str "45m later".data = .ok (0, 45) := by
  decide

/-- C7 amended: the decimal-hours grammar must match the entire string,
but the hours-and-minutes grammar is anchored only at the start: whenever
the decimal grammar fails and the prefix scan yields hours h and minutes
m with some leftover text, the leftover is ignored and the result is
accepted provided (h, m) is not the zero duration. -/
theorem c7_hours_minutes_unanchored (cs rest : List Char) (h m : Nat)
    (hdec : decHoursMatch cs = none)
    (hscan : hmScan cs = (h, m, rest))
    (hnz : ¬(h = 0 ∧ m = 0)) :
    parse_time_str cs = .ok (h, m) := by
  simp only [parse_time_str, timeRaw, hdec, hscan]
  split
  · next hc =>
    rw [Bool.and_eq_true, decide_eq_true_eq, decide_eq_true_eq] at hc
    exact absurd hc hnz
  · rfl

/-- C7 witness: 45m later scans to (0, 45) with leftover text and is
accepted by the theorem. -/
theorem c7_hours_minutes_unanchored_witness :
    decHoursMatch "45m later".data = none
    ∧ hmScan "45m later".data = (0, 45, " later".data)
    ∧ parse_time_str "45m later".data = .ok (0, 45) :=
  ⟨by decide, by decide,
    c7_hours_minutes_unanchored "45m later".data " later".data 0 45
      (by decide) (by decide) (by decide)⟩

/-- C9: the logs collection is shared mutable state (a Python class
attribute) that load_logs never clears, so parsing the same two-line file
twice yields one accumulated collection of both runs' entries, not two
separate equal collections: the first run ends with one entry, the second
run (fresh cursor, shared collection) ends with that entry duplicated. -/
theorem c9_second_run_accumulates :
    load_logs now₀ initSt ["2024-01-05", "PROJ-1, 1h"] =
      ({ mode := .dateOrTimeLog,
         current_date := some ⟨2024, 1, 5⟩,
         logs := [⟨some ⟨2024, 1, 5⟩, "PROJ-1", "", 1, 0⟩] }, none)
    ∧ load_logs now₀
        { initSt with logs := [⟨some ⟨2024, 1, 5⟩, "PROJ-1", "", 1, 0⟩] }
        ["2024-01-05", "PROJ-1, 1h"] =
      ({ mode := .dateOrTimeLog,
         current_date := some ⟨2024, 1, 5⟩,
         logs := [⟨some ⟨2024, 1, 5⟩, "PROJ-1", "", 1, 0⟩,
                  ⟨some ⟨2024, 1, 5⟩, "PROJ-1", "", 1, 0⟩] }, none)
    ∧ [⟨some ⟨2024, 1, 5⟩, "PROJ-1", "", 1, 0⟩,
       ⟨some ⟨2024, 1, 5⟩, "PROJ-1", "", 1, 0⟩] ≠
        ([⟨some ⟨2024, 1, 5⟩, "PROJ-1", "", 1, 0⟩] : List Log) := by
  refine ⟨by decide, by decide, by decide⟩

/-- C2: in mode date_or_time_log, a line is resolved by ordered
backtracking.  The run of parse_line equals: first the date
interpretation, and only if it fails the time interpretation, whose
failure (if any) is the one reported, wrapped once more with the
original line text.  Moreover: on date success the date is committed as
the pending date and the mode becomes time_log; on time success an entry
stamped with the current pending date is appended and the mode returns
to date_or_time_log; and when both fail, load_logs reports the
second (time-entry) failure together with the 1-based line number. -/
theorem c2_ordered_backtracking (now : Date) (st : St) (line : String) (n : Nat)
    (rest : List String)
    (hm : st.mode = .dateOrTimeLog) (hnb : (trimWS line.data).isEmpty = false) :
    (parse_line now st line =
      match parse_line_as_date now st line with
      | .ok s' => .ok s'
      | .error _ =>
        match parse_line_as_time st line with
        | .ok s' => .ok s'
        | .error e => .error (invalidLine line e))
    ∧ (match parse_date_line now (normalize line) with
       | .ok d =>
         parse_line now st line = .ok { st with mode := .timeLog, current_date := some d }
       | .error _ =>
         match parse_time_log_line (normalize line) with
         | .ok r =>
           parse_line now st line =
             .ok { st with
                   mode := .dateOrTimeLog,
                   logs := st.logs ++ [⟨st.current_date, r.1, r.2.2, r.2.1.1, r.2.1.2⟩] }
         | .error e =>
           parse_line now st line =
             .error (invalidLine line (invalidLine line e))
           ∧ loadLogsAux now st n (line :: rest) =
             (st, some (errorOnLine n (invalidLine line (invalidLine line e))))) := by
  obtain ⟨mo, cd, lg⟩ := st
  simp only at hm
  subst hm
  refine ⟨by simp only [parse_line], ?_⟩
  cases hd : parse_date_line now (normalize line) with
  | ok d => simp [parse_line, parse_line_as_date, hd]
  | error e1 =>
    cases ht : parse_time_log_line (normalize line) with
    | ok r => simp [parse_line, parse_line_as_date, parse_line_as_time, hd, ht]
    | error e2 =>
      refine ⟨?_, ?_⟩
      · simp [parse_line, parse_line_as_date, parse_line_as_time, hd, ht]
      · simp [loadLogsAux, hnb, parse_line, parse_line_as_date, parse_line_as_time, hd, ht]

/-- C2 witness: in mode date_or_time_log with pending date 2024-01-05,
the line ??? fails both interpretations at line 3 and the reported error
is the wrapped time-entry failure. -/
theorem c2_ordered_backtracking_witness :
    (trimWS "???".data).isEmpty = false
    ∧ (parse_line now₀ ⟨.dateOrTimeLog, some ⟨2024, 1, 5⟩, []⟩ "???" =
        .error "String '???' is invalid: String '???' is invalid: Ticket pattern not matched"
      ∧ (parse_line now₀ ⟨.dateOrTimeLog, some ⟨2024, 1, 5⟩, []⟩ "???" =
          .error "String '???' is invalid: String '???' is invalid: Ticket pattern not matched"
        ∧ loadLogsAux now₀ ⟨.dateOrTimeLog, some ⟨2024, 1, 5⟩, []⟩ 3 ["???"] =
          (⟨.dateOrTimeLog, some ⟨2024, 1, 5⟩, []⟩,
            some "Error on line 3: String '???' is invalid: String '???' is invalid: Ticket pattern not matched"))) :=
  ⟨by decide,
    c2_ordered_backtracking now₀ ⟨.dateOrTimeLog, some ⟨2024, 1, 5⟩, []⟩ "???" 3 [] rfl
      (by decide)⟩

/-- C3 counterexample: the claim says an aborted run leaves zero entries
in the collection; on the file whose third line is malformed, the run
does abort with a single line-3 error, yet the collection still holds
the entry parsed from line 2. -/
theorem c3_counterexample :
    load_logs now₀ initSt ["2024-01-05", "PROJ-1, 1h", "???"] =
      (⟨.dateOrTimeLog, some ⟨2024, 1, 5⟩, [⟨some ⟨2024, 1, 5⟩, "PROJ-1", "", 1, 0⟩]⟩,
        some "Error on line 3: String '???' is invalid: String '???' is invalid: Ticket pattern not matched")
    ∧ [⟨some ⟨2024, 1, 5⟩, "PROJ-1", "", 1, 0⟩] ≠ ([] : List Log) := by
  refine ⟨by decide, by decide⟩

/-- Decomposition of an aborted load_logs loop: the raised error comes
from the first non-blank line that fails to parse, it carries that
line's 1-based number (counted from n) and, via parse_line, the line
text; lines after it are not processed and the state left behind is the
state accumulated over the successfully parsed prefix. -/
theorem loadLogsAux_abort (now : Date) :
    ∀ (lines : List String) (st : St) (n : Nat) (st' : St) (err : String),
    loadLogsAux now st n lines = (st', some err) →
    ∃ pre l post stPre e,
      lines = pre ++ l :: post ∧
      loadLogsAux now st n pre = (stPre, none) ∧
      (trimWS l.data).isEmpty = false ∧
      parse_line now stPre l = .error e ∧
      err = errorOnLine (n + pre.length) e ∧
      st' = stPre := by
  intro lines
  induction lines with
  | nil => intro st n st' err h; simp [loadLogsAux] at h
  | cons l ls ih =>
    intro st n st' err h
    simp only [loadLogsAux] at h
    cases hb : (trimWS l.data).isEmpty with
    | true =>
      rw [hb] at h
      simp only [if_true] at h
      obtain ⟨pre, l', post, stPre, e, h1, h2, h3, h4, h5, h6⟩ := ih st (n + 1) st' err h
      have harith : n + 1 + pre.length = n + (l :: pre).length := by
        simp [List.length_cons]; omega
      rw [harith] at h5
      exact ⟨l :: pre, l', post, stPre, e, by simp [h1], by simp [loadLogsAux, hb, h2],
        h3, h4, h5, h6⟩
    | false =>
      rw [hb] at h
      simp only [Bool.false_eq_true, if_false] at h
      cases hp : parse_line now st l with
      | ok st1 =>
        rw [hp] at h
        obtain ⟨pre, l', post, stPre, e, h1, h2, h3, h4, h5, h6⟩ := ih st1 (n + 1) st' err h
        have harith : n + 1 + pre.length = n + (l :: pre).length := by
          simp [List.length_cons]; omega
        rw [harith] at h5
        exact ⟨l :: pre, l', post, stPre, e, by simp [h1], by simp [loadLogsAux, hb, hp, h2],
          h3, h4, h5, h6⟩
      | error e =>
        rw [hp] at h
        rw [Prod.ext_iff] at h
        obtain ⟨h1, h2⟩ := h
        simp only at h1 h2
        rw [Option.some_inj] at h2
        refine ⟨[], l, ls, st, e, rfl, by simp [loadLogsAux], hb, hp, ?_, h1.symm⟩
        rw [← h2]
        simp

/-- C3 amended: any parse failure aborts the whole run with a single
error carrying the 1-based source line number and (inside the wrapped
parse_line message) the line text; no later line is processed; but the
entry collection is left exactly as accumulated over the successfully
parsed prefix, so entries from lines before the failing one remain in it
(the exiting process never reports or uploads them). -/
theorem c3_abort_partial_state (now : Date) (st : St) (lines : List String) (st' : St)
    (err : String) (h : load_logs now st lines = (st', some err)) :
    ∃ pre l post stPre e,
      lines = pre ++ l :: post ∧
      loadLogsAux now st 1 pre = (stPre, none) ∧
      (trimWS l.data).isEmpty = false ∧
      parse_line now stPre l = .error e ∧
      err = errorOnLine (pre.length + 1) e ∧
      st' = stPre := by
  have haux : loadLogsAux now st 1 lines = (st', some err) := by
    unfold load_logs at h
    rcases hr : loadLogsAux now st 1 lines with ⟨s, e0⟩
    rw [hr] at h
    cases e0 with
    | none => simp at h
    | some e1 =>
      rw [Prod.ext_iff] at h
      obtain ⟨h1, h2⟩ := h
      simp only at h1 h2
      rw [h1, h2]
  obtain ⟨pre, l, post, stPre, e, h1, h2, h3, h4, h5, h6⟩ :=
    loadLogsAux_abort now lines st 1 st' err haux
  refine ⟨pre, l, post, stPre, e, h1, h2, h3, h4, ?_, h6⟩
  rw [h5, Nat.add_comm]

/-- C3 witness: on the three-line file aborting at line 3, the theorem
decomposes the run into the two-line parsed prefix, the failing line and
the retained one-entry state. -/
theorem c3_abort_partial_state_witness :
    load_logs now₀ initSt ["2024-01-05", "PROJ-1, 1h", "???"] =
      (⟨.dateOrTimeLog, some ⟨2024, 1, 5⟩, [⟨some ⟨2024, 1, 5⟩, "PROJ-1", "", 1, 0⟩]⟩,
        some "Error on line 3: String '???' is invalid: String '???' is invalid: Ticket pattern not matched")
    ∧ ∃ pre l post stPre e,
        ["2024-01-05", "PROJ-1, 1h", "???"] = pre ++ l :: post ∧
        loadLogsAux now₀ initSt 1 pre = (stPre, none) ∧
        (trimWS l.data).isEmpty = false ∧
        parse_line now₀ stPre l = .error e ∧
        ("Error on line 3: String '???' is invalid: String '???' is invalid: Ticket pattern not matched"
          = errorOnLine (pre.length + 1) e) ∧
        (⟨.dateOrTimeLog, some ⟨2024, 1, 5⟩,
          [⟨some ⟨2024, 1, 5⟩, "PROJ-1", "", 1, 0⟩]⟩ : St) = stPre :=
  ⟨by decide,
    c3_abort_partial_state now₀ initSt ["2024-01-05", "PROJ-1, 1h", "???"]
      ⟨.dateOrTimeLog, some ⟨2024, 1, 5⟩, [⟨some ⟨2024, 1, 5⟩, "PROJ-1", "", 1, 0⟩]⟩
      "Error on line 3: String '???' is invalid: String '???' is invalid: Ticket pattern not matched"
      (by decide)⟩

/-- Soundness of the exact-n-digits scanner: a success decomposes the
input into n leading digits and the rest. -/
theorem takeDigits_sound :
    ∀ (n : Nat) (cs a r : List Char), takeDigits n cs = some (a, r) →
      cs = a ++ r ∧ a.length = n ∧ a.all Char.isDigit = true := by
  intro n
  induction n with
  | zero =>
    intro cs a r h
    simp only [takeDigits, Option.some.injEq, Prod.mk.injEq] at h
    obtain ⟨h1, h2⟩ := h
    subst h1
    subst h2
    simp
  | succ n ih =>
    intro cs a r h
    cases cs with
    | nil => simp [takeDigits] at h
    | cons c cs' =>
      simp only [takeDigits] at h
      by_cases hc : c.isDigit
      · rw [if_pos hc] at h
        cases htd : takeDigits n cs' with
        | none => rw [htd] at h; simp at h
        | some p =>
          obtain ⟨pa, pr⟩ := p
          rw [htd] at h
          simp only [Option.map_some', Option.some.injEq, Prod.mk.injEq] at h
          obtain ⟨h1, h2⟩ := h
          subst h1
          subst h2
          obtain ⟨hcs, hlen, hdig⟩ := ih cs' pa pr htd
          refine ⟨by simp [hcs], by simp [hlen], by simp [hc, hdig]⟩
      · rw [if_neg hc] at h; simp at h

/-- Completeness of the exact-n-digits scanner: n leading digits are
always taken. -/
theorem takeDigits_complete :
    ∀ (n : Nat) (a r : List Char), a.length = n → a.all Char.isDigit = true →
      takeDigits n (a ++ r) = some (a, r) := by
  intro n
  induction n with
  | zero =>
    intro a r hl _
    rw [List.length_eq_zero] at hl
    subst hl
    simp [takeDigits]
  | succ n ih =>
    intro a r hl hd
    cases a with
    | nil => simp at hl
    | cons c a' =>
      simp only [List.length_cons, Nat.succ.injEq] at hl
      simp only [List.all_cons, Bool.and_eq_true] at hd
      simp [takeDigits, hd.1, ih a' r hl hd.2]

/-- Digits are not hyphens. -/
theorem digit_ne_hyphen (c : Char) (h : c.isDigit = true) : c ≠ '-' := by
  intro hc
  subst hc
  exact absurd h (by decide)

/-- Every list splits as an optional leading hyphen plus the rest eaten
by skipHyphen. -/
theorem skipHyphen_decomp (r : List Char) :
    ∃ b r', r = hyph b ++ r' ∧ skipHyphen r = r' := by
  cases r with
  | nil => exact ⟨false, [], rfl, rfl⟩
  | cons c t =>
    by_cases hc : c = '-'
    · subst hc
      exact ⟨true, t, rfl, by simp [skipHyphen]⟩
    · exact ⟨false, c :: t, rfl, by simp [skipHyphen, hc]⟩

/-- skipHyphen leaves a digit-headed list alone. -/
theorem skipHyphen_digit (c : Char) (t : List Char) (hc : c.isDigit = true) :
    skipHyphen (c :: t) = c :: t := by
  simp [skipHyphen, digit_ne_hyphen c hc]

/-- C4 counterexample: the claim says mixed one-hyphen forms such as
2024-0105 and 202401-05 fail with GrammarMismatch; both in fact parse
(each hyphen of the date regex is independently optional), here to the
date 2024-01-05. -/
theorem c4_counterexample :
    parse_date_line now₀ "2024-0105" = .ok ⟨2024, 1, 5⟩
    ∧ parse_date_line now₀ "202401-05" = .ok ⟨2024, 1, 5⟩ := by
  refine ⟨by decide, by decide⟩

/-- C4 amended: the date shape accepts exactly the tokens made of 4
digits, an optional hyphen, 2 digits, an optional hyphen and 2 digits,
with the two hyphens independently optional (so YYYY-MM-DD, YYYYMMDD and
the mixed forms YYYY-MMDD and YYYYMM-DD all match, and every other shape
fails with GrammarMismatch), the captured digit groups giving year,
month and day. -/
theorem c4_date_shape_characterization (cs : List Char) (y m d : Nat) :
    parseDateShape cs = some (y, m, d) ↔
      ∃ ya ma da b1 b2,
        cs = ya ++ hyph b1 ++ ma ++ hyph b2 ++ da ∧
        ya.length = 4 ∧ ma.length = 2 ∧ da.length = 2 ∧
        (ya ++ ma ++ da).all Char.isDigit = true ∧
        y = digitsVal ya ∧ m = digitsVal ma ∧ d = digitsVal da := by
  constructor
  · intro h
    simp only [parseDateShape] at h
    cases htd1 : takeDigits 4 cs with
    | none => rw [htd1] at h; simp at h
    | some p1 =>
      obtain ⟨ya, r1⟩ := p1
      rw [htd1] at h
      dsimp only at h
      obtain ⟨hcs1, hlen1, hdig1⟩ := takeDigits_sound 4 cs ya r1 htd1
      obtain ⟨b1, r1', hr1, hs1⟩ := skipHyphen_decomp r1
      rw [hs1] at h
      cases htd2 : takeDigits 2 r1' with
      | none => rw [htd2] at h; simp at h
      | some p2 =>
        obtain ⟨ma, r2⟩ := p2
        rw [htd2] at h
        dsimp only at h
        obtain ⟨hcs2, hlen2, hdig2⟩ := takeDigits_sound 2 r1' ma r2 htd2
        obtain ⟨b2, r2', hr2, hs2⟩ := skipHyphen_decomp r2
        rw [hs2] at h
        cases htd3 : takeDigits 2 r2' with
        | none => rw [htd3] at h; simp at h
        | some p3 =>
          obtain ⟨da, r3⟩ := p3
          rw [htd3] at h
          dsimp only at h
          obtain ⟨hcs3, hlen3, hdig3⟩ := takeDigits_sound 2 r2' da r3 htd3
          cases hr3 : r3.isEmpty with
          | false => rw [hr3] at h; simp at h
          | true =>
            rw [hr3] at h
            simp only [if_true, Option.some.injEq, Prod.mk.injEq] at h
            have hy := h.1
            have hm := h.2.1
            have hd := h.2.2
            have hr3nil : r3 = [] := by
              cases r3 with
              | nil => rfl
              | cons x xs => simp at hr3
            refine ⟨ya, ma, da, b1, b2, ?_, hlen1, hlen2, hlen3, ?_, hy.symm, hm.symm, hd.symm⟩
            · rw [hcs1, hr1, hcs2, hr2, hcs3, hr3nil]
              simp [List.append_assoc]
            · simp [List.all_append, hdig1, hdig2, hdig3]
  · rintro ⟨ya, ma, da, b1, b2, hcs, hl1, hl2, hl3, hdig, hy, hm, hd⟩
    subst hcs hy hm hd
    simp only [List.append_assoc, List.all_append, Bool.and_eq_true] at hdig
    have hd1 := hdig.1
    have hd2 := hdig.2.1
    have hd3 := hdig.2.2
    obtain ⟨m1, m2, hma⟩ := List.length_eq_two.mp hl2
    obtain ⟨e1, e2, hda⟩ := List.length_eq_two.mp hl3
    subst hma hda
    simp only [List.all_cons, List.all_nil, Bool.and_eq_true, Bool.and_true] at hd2 hd3
    simp only [parseDateShape, List.append_assoc]
    rw [takeDigits_complete 4 ya (hyph b1 ++ ([m1, m2] ++ (hyph b2 ++ [e1, e2]))) hl1 hd1]
    dsimp only
    have hsk1 : skipHyphen (hyph b1 ++ ([m1, m2] ++ (hyph b2 ++ [e1, e2]))) =
        [m1, m2] ++ (hyph b2 ++ [e1, e2]) := by
      cases b1 with
      | true => simp [hyph, skipHyphen]
      | false => simpa [hyph] using skipHyphen_digit m1 _ hd2.1
    rw [hsk1]
    rw [takeDigits_complete 2 [m1, m2] (hyph b2 ++ [e1, e2]) (by simp)
      (by simp [hd2.1, hd2.2])]
    dsimp only
    have hsk2 : skipHyphen (hyph b2 ++ [e1, e2]) = [e1, e2] := by
      cases b2 with
      | true => simp [hyph, skipHyphen]
      | false => simpa [hyph] using skipHyphen_digit e1 _ hd3.1
    rw [hsk2]
    have htd3 : takeDigits 2 [e1, e2] = some ([e1, e2], []) := by
      have := takeDigits_complete 2 [e1, e2] [] (by simp) (by simp [hd3.1, hd3.2])
      simpa using this
    rw [htd3]
    dsimp only
    simp

/-- C4 witness: the characterization applied to 2024-0105, exhibiting
its decomposition with the first hyphen present and the second absent. -/
theorem c4_date_shape_characterization_witness :
    parseDateShape "2024-0105".data = some (2024, 1, 5)
    ∧ ∃ ya ma da b1 b2,
        "2024-0105".data = ya ++ hyph b1 ++ ma ++ hyph b2 ++ da ∧
        ya.length = 4 ∧ ma.length = 2 ∧ da.length = 2 ∧
        (ya ++ ma ++ da).all Char.isDigit = true ∧
        2024 = digitsVal ya ∧ 1 = digitsVal ma ∧ 5 = digitsVal da :=
  ⟨by decide,
    (c4_date_shape_characterization "2024-0105".data 2024 1 5).mp (by decide)⟩

/-- Members of an insertion are the inserted element or old members. -/
theorem insertLog_mem (l : Log) :
    ∀ (xs : List Log) (y : Log), y ∈ insertLog l xs → y = l ∨ y ∈ xs := by
  intro xs
  induction xs with
  | nil =>
    intro y hy
    simp [insertLog] at hy
    exact Or.inl hy
  | cons x xs ih =>
    intro y hy
    simp only [insertLog] at hy
    split at hy
    · rcases List.mem_cons.mp hy with rfl | hmem
      · exact Or.inl rfl
      · exact Or.inr hmem
    · rcases List.mem_cons.mp hy with rfl | hmem
      · exact Or.inr (List.mem_cons_self _ _)
      · rcases ih y hmem with h' | h'
        · exact Or.inl h'
        · exact Or.inr (List.mem_cons_of_mem _ h')

/-- Insertion preserves sortedness under the total transitive log
order. -/
theorem insertLog_pairwise (l : Log) :
    ∀ xs : List Log, xs.Pairwise (fun a b => logLe a b = true) →
      (insertLog l xs).Pairwise (fun a b => logLe a b = true) := by
  intro xs
  induction xs with
  | nil => intro _; simp [insertLog]
  | cons x xs ih =>
    intro h
    obtain ⟨hx, hxs⟩ := List.pairwise_cons.mp h
    simp only [insertLog]
    split
    · next hle =>
      refine List.pairwise_cons.mpr ⟨?_, h⟩
      intro y hy
      rcases List.mem_cons.mp hy with rfl | hmem
      · exact hle
      · exact logLe_trans l x y hle (hx y hmem)
    · next hnle =>
      have hxl : logLe x l = true := by
        have htot := logLe_total l x
        rw [Bool.or_eq_true] at htot
        rcases htot with h' | h'
        · exact absurd h' hnle
        · exact h'
      refine List.pairwise_cons.mpr ⟨?_, ih hxs⟩
      intro y hy
      rcases insertLog_mem l xs y hy with rfl | hmem
      · exact hxl
      · exact hx y hmem

/-- The sort used by load_logs produces a list sorted by the key
order. -/
theorem sortLogs_pairwise (logs : List Log) :
    (sortLogs logs).Pairwise (fun a b => logLe a b = true) := by
  induction logs with
  | nil => simp [sortLogs]
  | cons l ls ih =>
    have : sortLogs (l :: ls) = insertLog l (sortLogs ls) := rfl
    rw [this]
    exact insertLog_pairwise l (sortLogs ls) ih

/-- C8: after any successful run of load_logs from a fresh state, the
entry collection is totally ordered by the key (date ascending, then
ticket project part ascending, then numeric ticket suffix compared as an
integer). -/
theorem c8_collection_sorted (now : Date) (lines : List String) (st' : St)
    (h : load_logs now initSt lines = (st', none)) :
    st'.logs.Pairwise (fun a b => logLe a b = true) := by
  unfold load_logs at h
  rcases haux : loadLogsAux now initSt 1 lines with ⟨s, e0⟩
  rw [haux] at h
  cases e0 with
  | none =>
    rw [Prod.ext_iff] at h
    obtain ⟨h1, _⟩ := h
    simp only at h1
    rw [← h1]
    exact sortLogs_pairwise s.logs
  | some e1 => simp at h

/-- C8 witness: a file listing PROJ-10 before PROJ-9 and a later date
heading 2024-01-04 parses successfully and its collection is sorted,
with PROJ-9 before PROJ-10 (numeric suffix order). -/
theorem c8_collection_sorted_witness :
    load_logs now₀ initSt
        ["2024-01-05", "PROJ-10, 1h", "PROJ-9, 30m", "2024-01-04", "PROJ-2, 15m"] =
      ({ mode := .dateOrTimeLog,
         current_date := some ⟨2024, 1, 4⟩,
         logs := [⟨some ⟨2024, 1, 4⟩, "PROJ-2", "", 0, 15⟩,
                  ⟨some ⟨2024, 1, 5⟩, "PROJ-9", "", 0, 30⟩,
                  ⟨some ⟨2024, 1, 5⟩, "PROJ-10", "", 1, 0⟩] }, none)
    ∧ List.Pairwise (fun a b => logLe a b = true)
        ({ mode := .dateOrTimeLog,
           current_date := some ⟨2024, 1, 4⟩,
           logs := [⟨some ⟨2024, 1, 4⟩, "PROJ-2", "", 0, 15⟩,
                    ⟨some ⟨2024, 1, 5⟩, "PROJ-9", "", 0, 30⟩,
                    ⟨some ⟨2024, 1, 5⟩, "PROJ-10", "", 1, 0⟩] } : St).logs :=
  ⟨by decide,
    c8_collection_sorted now₀
      ["2024-01-05", "PROJ-10, 1h", "PROJ-9, 30m", "2024-01-04", "PROJ-2, 15m"]
      { mode := .dateOrTimeLog,
        current_date := some ⟨2024, 1, 4⟩,
        logs := [⟨some ⟨2024, 1, 4⟩, "PROJ-2", "", 0, 15⟩,
                 ⟨some ⟨2024, 1, 5⟩, "PROJ-9", "", 0, 30⟩,
                 ⟨some ⟨2024, 1, 5⟩, "PROJ-10", "", 1, 0⟩] }
      (by decide)⟩

/-- C10: a line whose normalized text matches the 8-digit date shape but
whose fields are not a valid calendar date makes the date parse raise
the datetime field error; as the first line of a file, the run aborts at
line 1 with that error wrapped in the line text, and no pending date is
committed (the state is returned unchanged). -/
theorem c10_invalid_calendar_date (now : Date) (s : String) (y m d : Nat)
    (rest : List String)
    (hshape : parseDateShape (normalize s).data = some (y, m, d))
    (hvalid : validYMD y m d = false) :
    load_logs now initSt (s :: rest) =
      (initSt, some (errorOnLine 1 (invalidLine s (datetimeError y m d)))) := by
  have hne : (trimWS s.data).isEmpty = false := by
    cases hb : (trimWS s.data).isEmpty
    · rfl
    · exfalso
      have hb' : trimWS s.data = [] := by simpa using hb
      rw [normalize, hb'] at hshape
      simp [parseDateShape, takeDigits, dedupeSpaces] at hshape
  have hpl : parse_line now initSt s = .error (invalidLine s (datetimeError y m d)) := by
    simp [parse_line, initSt, parse_line_as_date, parse_date_line, hshape, hvalid]
  simp [load_logs, loadLogsAux, hne, hpl]

/-- C10 witness: 2024-13-01 matches the shape, is no valid date, and
aborts the run at line 1 with the month range error. -/
theorem c10_invalid_calendar_date_witness :
    parseDateShape (normalize "2024-13-01").data = some (2024, 13, 1)
    ∧ validYMD 2024 13 1 = false
    ∧ load_logs now₀ initSt ["2024-13-01"] =
      (initSt, some (errorOnLine 1 (invalidLine "2024-13-01" (datetimeError 2024 13 1)))) :=
  ⟨by decide, by decide,
    c10_invalid_calendar_date now₀ "2024-13-01" 2024 13 1 [] (by decide) (by decide)⟩

end Logjammin
